/-
  Verification of the context-management core of the dev-bot backend.

  Shallow embedding of:
    - src/backend/src/models/types.ts        (Message, Context, ContextStats)
    - src/backend/src/services/gemini.ts     (GeminiClient: messagesToContent,
                                              countTokens, buildPrompt,
                                              generateResponse, summarizeContext)
    - the DatabaseManager contexts table     (createContext, getContext,
                                              getContextBySession, updateContext)
    - src/backend/src/context/contextManager.ts
                                             (ContextManager: createContext,
                                              getContextBySession, addMessage,
                                              getContextStats, summarizeContext)

  Modelling conventions:
    - JS numbers used as integer token counters are modelled as Nat.
    - The floating point expression (totalTokens / maxTokens) * 100 and the
      threshold comparison are modelled over the exact rationals.
    - The external Gemini HTTP capabilities (countTokens endpoint, text
      generation endpoint) are parameters of an `Env` record, returning
      `Except String _`: `Except.error` models a thrown/rejected promise.
      The primary/secondary API-key retry inside generateResponse is folded
      into the single `gen` capability (its net effect is one text or one
      thrown error).
    - `uuidv4()` and `Date.now()` are inputs (`sumId` in `Env`, `now`
      arguments): the code uses them only as opaque fresh values.
    - The persistent store is the list of rows of the `contexts` table; a
      thrown JS exception is modelled by returning the store unchanged
      together with `Except.error`, matching better-sqlite3's synchronous
      writes (no write happens on the failing paths).
    - `summarizeContext`'s denormalized updates to the sessions/projects
      tables (contextManager.ts lines 152-171) touch only those tables,
      never a `contexts` row, and are omitted: every claim below is about
      context rows.
-/
import Mathlib

namespace DevBot

/-- Roles of `Message.role` in types.ts: `'user' | 'assistant' | 'system'`.
There is no fourth constructor: the type union in the source has exactly
these three members. -/
inductive Role where
  | user
  | assistant
  | system
deriving DecidableEq, Repr

/-- `${m.role}` template rendering of a role, as used in gemini.ts's
summarization prompt. -/
def Role.toString : Role → String
  | Role.user => "user"
  | Role.assistant => "assistant"
  | Role.system => "system"

/-- `Message` from types.ts.  The fields `language` and `parts` are never
read or written by the modelled code paths and are omitted. -/
structure Message where
  id : String
  role : Role
  content : String
  type : Option String := none
  timestamp : Nat
  tokens : Option Nat := none
deriving DecidableEq, Repr

/-- `Context` from types.ts. -/
structure Context where
  id : String
  sessionId : Option String := none
  projectId : Option String := none
  messages : List Message
  summary : Option String := none
  totalTokens : Nat
  maxTokens : Nat
  createdAt : Nat
  updatedAt : Nat
deriving DecidableEq, Repr

/-- `ContextStats` from types.ts; `percentageUsed` is the JS float, modelled
as an exact rational. -/
structure ContextStats where
  totalTokens : Nat
  maxTokens : Nat
  percentageUsed : ℚ
  needsSummarization : Bool
  messagesCount : Nat
deriving DecidableEq, Repr

/-- One element of the `Content[]` array sent to the Gemini countTokens
endpoint: `{ role, parts: [{ text }] }` (gemini.ts, messagesToContent). -/
structure Content where
  role : String
  text : String
deriving DecidableEq, Repr

/-- External capabilities and configuration consumed by the modelled code.
`ext` is the Gemini countTokens endpoint (applied to the rendered
contents), `gen` the text-generation endpoint (applied to the full prompt
string), `sumId` the `uuidv4()` drawn for a summary message, `threshold`
is `settings.contextSummarizationThreshold` (default 0.9) and
`maxContextTokens` is `settings.maxContextTokens` (default 1,000,000). -/
structure Env where
  ext : List Content → Except String Nat
  gen : String → Except String String
  sumId : String
  threshold : ℚ
  maxContextTokens : Nat

/-- The `contexts` table: its list of rows. -/
abbrev Store := List Context

namespace DB

/-- `getContext`: SELECT * FROM contexts WHERE id = ? (id is the primary
key, so the first match is the row). -/
def getContext (db : Store) (id : String) : Option Context :=
  List.find? (fun c => c.id = id) db

/-- `createContext`: INSERT INTO contexts ... -/
def createContext (db : Store) (context : Context) : Store :=
  List.append db [context]

/-- `getContextBySession`: SELECT * FROM contexts WHERE session_id = ?
ORDER BY updated_at DESC LIMIT 1 — of the rows for the session, one with
maximal `updated_at` is returned. -/
def getContextBySession (db : Store) (sessionId : String) : Option Context :=
  (List.filter (fun c => c.sessionId = some sessionId) db).foldl
    (fun best c =>
      match best with
      | none => some c
      | some b => if b.updatedAt < c.updatedAt then some c else some b)
    none

/-- `getContextByProject`: SELECT * FROM contexts WHERE project_id = ?
ORDER BY updated_at DESC LIMIT 1 — of the rows for the project, one with
maximal `updated_at` is returned. -/
def getContextByProject (db : Store) (projectId : String) : Option Context :=
  (List.filter (fun c => c.projectId = some projectId) db).foldl
    (fun best c =>
      match best with
      | none => some c
      | some b => if b.updatedAt < c.updatedAt then some c else some b)
    none

/-- Effect of `updateContext`'s SET list on one row: a field is included
exactly when the corresponding update is not `undefined` (modelled by
`some`); `updated_at` is always set to `Date.now()` (the `now`
argument). -/
def applyUpdates (c : Context) (messages : Option (List Message))
    (summary : Option String) (totalTokens : Option Nat) (now : Nat) : Context :=
  { c with
    messages := messages.getD c.messages
    summary := match summary with
               | some s => some s
               | none => c.summary
    totalTokens := totalTokens.getD c.totalTokens
    updatedAt := now }

/-- `updateContext`: UPDATE contexts SET ... WHERE id = ?. -/
def updateContext (db : Store) (id : String) (messages : Option (List Message))
    (summary : Option String) (totalTokens : Option Nat) (now : Nat) : Store :=
  List.map (fun c =>
    if c.id = id then applyUpdates c messages summary totalTokens now else c) db

end DB

namespace GeminiClient

/-- gemini.ts `messagesToContent`: filter out system messages (handled
separately), map the rest to `{ role: assistant ↦ model | _ ↦ user,
parts: [{ text: content }] }`. -/
def messagesToContent (messages : List Message) : List Content :=
  List.map
    (fun msg =>
      { role := if msg.role = Role.assistant then "model" else "user"
        text := msg.content })
    (List.filter (fun msg => !(msg.role = Role.system)) messages)

/-- gemini.ts `countTokens`: try the external endpoint on the rendered
contents; on any error fall back to `Math.ceil(totalChars / 4)` where
`totalChars` is the sum of the messages' content lengths.  The catch means
this function is total: a counting failure is never propagated.  (The
`result.totalTokens || 0` default is folded into `ext` returning the
final Nat.) -/
def countTokens (ext : List Content → Except String Nat) (messages : List Message) : Nat :=
  match ext (messagesToContent messages) with
  | Except.ok n => n
  | Except.error _ =>
      let totalChars := List.foldl (fun sum msg => sum + msg.content.length) 0 messages
      (totalChars + 3) / 4

/-- gemini.ts `buildPrompt`: optional system prompt, then the conversation
as role-prefixed lines (`Assistant:` for assistant, `User:` otherwise)
joined by blank lines. -/
def buildPrompt (messages : List Message) (systemPrompt : Option String) : String :=
  let prompt := match systemPrompt with
                | some sp => sp ++ "\n\n"
                | none => ""
  prompt ++ String.intercalate "\n\n"
    (List.map
      (fun msg =>
        (if msg.role = Role.assistant then "Assistant" else "User") ++ ": " ++ msg.content)
      messages)

/-- gemini.ts `generateResponse`, restricted to its text result: builds the
full prompt and calls the generation capability.  The response token
counting only fills the returned `tokens` field, which summarizeContext
ignores; the primary/secondary key retry is folded into `gen`. -/
def generateResponse (env : Env) (messages : List Message) (systemPrompt : Option String) :
    Except String String :=
  env.gen (buildPrompt messages systemPrompt)

/-- The summarization prompt template of gemini.ts `summarizeContext`, with
the conversation rendered as `role: content` paragraphs. -/
def summaryPrompt (messages : List Message) : String :=
  "\nYou are a context summarization AI. Your task is to create a concise but comprehensive summary of the conversation below.\n\nThe summary should:\n1. Capture all key information, decisions, and context\n2. Preserve technical details, code snippets (as references), and important specifications\n3. Maintain chronological flow of the conversation\n4. Be significantly shorter than the original (aim for 30-40% of original length)\n5. Be written in a way that allows seamless continuation of the conversation\n\nConversation:\n"
    ++ String.intercalate "\n\n"
        (List.map (fun m => m.role.toString ++ ": " ++ m.content) messages)
    ++ "\n\nProvide ONLY the summary, no preamble or explanation.\n"

/-- gemini.ts `summarizeContext`: wraps the summarization prompt in a
single user message and runs `generateResponse` on it, returning the
generated text. -/
def summarizeCtx (env : Env) (messages : List Message) : Except String String :=
  generateResponse env
    [{ id := "summary", role := Role.user, content := summaryPrompt messages, timestamp := 0 }]
    none

end GeminiClient

namespace ContextManager

/-- contextManager.ts `createContext`: build a fresh Context (id from
`uuidv4()`, `maxTokens` from settings, timestamps from `Date.now()`),
insert it, return it together with the updated store. -/
def createContext (env : Env) (db : Store) (freshId : String) (now : Nat)
    (sessionId projectId : Option String) : Context × Store :=
  let context : Context :=
    { id := freshId
      sessionId := sessionId
      projectId := projectId
      messages := []
      summary := none
      totalTokens := 0
      maxTokens := env.maxContextTokens
      createdAt := now
      updatedAt := now }
  (context, DB.createContext db context)

/-- contextManager.ts `getContextBySession`: load the owner's context, or
lazily create one when none exists. -/
def getContextBySession (env : Env) (db : Store) (freshId : String) (now : Nat)
    (sessionId : String) : Context × Store :=
  match DB.getContextBySession db sessionId with
  | some context => (context, db)
  | none => createContext env db freshId now (some sessionId) none

/-- contextManager.ts `getContextByProject`: load the owner's context, or
lazily create one when none exists (`createContext(undefined, projectId)`). -/
def getContextByProject (env : Env) (db : Store) (freshId : String) (now : Nat)
    (projectId : String) : Context × Store :=
  match DB.getContextByProject db projectId with
  | some context => (context, db)
  | none => createContext env db freshId now none (some projectId)

/-- contextManager.ts `getContextStats`: pure derived view.
`percentageUsed = (totalTokens / maxTokens) * 100`;
`needsSummarization = percentageUsed >= threshold * 100`
(threshold is `settings.contextSummarizationThreshold`). -/
def getContextStats (context : Context) (threshold : ℚ) : ContextStats :=
  let percentageUsed : ℚ := ((context.totalTokens : ℚ) / (context.maxTokens : ℚ)) * 100
  { totalTokens := context.totalTokens
    maxTokens := context.maxTokens
    percentageUsed := percentageUsed
    needsSummarization := decide (percentageUsed ≥ threshold * 100)
    messagesCount := context.messages.length }

/-- contextManager.ts `summarizeContext`: re-read the context row, generate
a summary of its messages, build the synthetic summary message (role
`'system'`, content framed by the `[CONTEXT SUMMARY]` banner, id from
`uuidv4()`), count its tokens, keep the last 10 messages (`slice(-10)`),
and write `[summaryMessage, ...recentMessages]` with
`totalTokens = summaryTokens + recentTokens` re-derived from the kept
messages (`reduce` over `msg.tokens || 0`).  The catch block rethrows, so
a generation error leaves the store untouched and surfaces as
`Except.error`. -/
def summarizeContext (env : Env) (db : Store) (contextId : String) (now : Nat) :
    Store × Except String Unit :=
  match DB.getContext db contextId with
  | none => (db, Except.error ("Context not found: " ++ contextId))
  | some context =>
    match GeminiClient.summarizeCtx env context.messages with
    | Except.error e => (db, Except.error e)
    | Except.ok summary =>
      let summaryMessage : Message :=
        { id := env.sumId
          role := Role.system
          content := "[CONTEXT SUMMARY]\n" ++ summary ++ "\n\n[RECENT MESSAGES FOLLOW]"
          type := some "text"
          timestamp := now }
      let summaryTokens := GeminiClient.countTokens env.ext [summaryMessage]
      let summaryMessage := { summaryMessage with tokens := some summaryTokens }
      let recentMessages := context.messages.drop (context.messages.length - 10)
      let recentTokens := List.foldl (fun sum msg => sum + msg.tokens.getD 0) 0 recentMessages
      let newMessages := summaryMessage :: recentMessages
      let newTotalTokens := summaryTokens + recentTokens
      (DB.updateContext db contextId (some newMessages) (some summary) (some newTotalTokens) now,
       Except.ok ())

/-- contextManager.ts `addMessage`: load the row, count the new message's
tokens, set them on the message, append it in memory and bump
`totalTokens`; if the post-append stats cross the threshold, run
`summarizeContext` (which re-reads the *persisted* row), otherwise persist
`{messages, totalTokens}`.  The returned Bool records whether the
summarization branch was taken; `Except.error` models the thrown
exception (context missing, or a summarization failure propagating out of
the un-caught `await this.summarizeContext(...)`). -/
def addMessage (env : Env) (db : Store) (contextId : String) (message : Message) (now : Nat) :
    Store × Except String Bool :=
  match DB.getContext db contextId with
  | none => (db, Except.error ("Context not found: " ++ contextId))
  | some context =>
    let messageTokens := GeminiClient.countTokens env.ext [message]
    let message := { message with tokens := some messageTokens }
    let context :=
      { context with
        messages := context.messages ++ [message]
        totalTokens := context.totalTokens + messageTokens
        updatedAt := now }
    let stats := getContextStats context env.threshold
    if stats.needsSummarization then
      let r := summarizeContext env db contextId now
      (r.1, r.2.map (fun _ => true))
    else
      (DB.updateContext db contextId (some context.messages) none (some context.totalTokens) now,
       Except.ok false)

end ContextManager

/-- Harness for a sequence of `AppendTurn` calls on one context: runs
`addMessage` for each (message, now) pair in order, threading the store
and collecting each call's outcome. -/
def runAppends (env : Env) (db : Store) (contextId : String)
    (calls : List (Message × Nat)) : Store × List (Except String Bool) :=
  calls.foldl
    (fun acc call =>
      let r := ContextManager.addMessage env acc.1 contextId call.1 call.2
      (r.1, acc.2 ++ [r.2]))
    (db, [])

/-- Sum of the messages' `tokens || 0` fields — the quantity
`totalTokens` is claimed to track. -/
def tokenSum (messages : List Message) : Nat :=
  List.foldl (fun sum msg => sum + msg.tokens.getD 0) 0 messages

/-- Per-store invariant: every context row's `totalTokens` equals the sum
of its messages' token counts. -/
def StoreInv (db : Store) : Prop :=
  ∀ c ∈ db, c.totalTokens = tokenSum c.messages

instance : DecidablePred StoreInv := fun db =>
  inferInstanceAs (Decidable (∀ c ∈ db, c.totalTokens = tokenSum c.messages))

/-- The synthetic summary message built by `summarizeContext` before its
tokens are counted. -/
def summaryMessageBase (env : Env) (summary : String) (now : Nat) : Message :=
  { id := env.sumId
    role := Role.system
    content := "[CONTEXT SUMMARY]\n" ++ summary ++ "\n\n[RECENT MESSAGES FOLLOW]"
    type := some ("text")
    timestamp := now }

/-- The token count `summarizeContext` assigns to the summary message. -/
def summaryTokensOf (env : Env) (summary : String) (now : Nat) : Nat :=
  GeminiClient.countTokens env.ext [summaryMessageBase env summary now]

/-- The summary message as stored: the base message with its counted
tokens. -/
def summaryMessageOf (env : Env) (summary : String) (now : Nat) : Message :=
  { summaryMessageBase env summary now with tokens := some (summaryTokensOf env summary now) }

/-- `messages.slice(-10)`: the recency window kept by compaction. -/
def lastWindow (messages : List Message) : List Message :=
  List.drop (messages.length - 10) messages

/-- A message as persisted by `addMessage`: its counted tokens set. -/
def msgWithTokens (env : Env) (message : Message) : Message :=
  { message with tokens := some (GeminiClient.countTokens env.ext [message]) }

/-! ### Concrete fixtures used by witnesses and counterexamples -/

/-- Counting capability billing one token per character of rendered text. -/
def extLen : List Content → Except String Nat :=
  fun contents => Except.ok (List.foldl (fun sum c => sum + c.text.length) 0 contents)

/-- Counting capability that always fails. -/
def extFail : List Content → Except String Nat :=
  fun _ => Except.error ("network error")

/-- Generation capability returning a fixed short summary text. -/
def genOk : String → Except String String := fun _ => Except.ok ("S")

/-- Generation capability that always errors. -/
def genFail : String → Except String String := fun _ => Except.error ("boom")

/-- Environment with working capabilities, `maxTokens = 100` scale and the
default 0.9 threshold. -/
def envOk : Env :=
  { ext := extLen, gen := genOk, sumId := "sum-1", threshold := 9 / 10, maxContextTokens := 100 }

/-- `envOk` with a failing generation capability. -/
def envGenFail : Env := { envOk with gen := genFail }

/-- `envOk` with a failing counting capability. -/
def envExtFail : Env := { envOk with ext := extFail }

/-- A string of `n` copies of `a` (so `extLen` bills it `n` tokens). -/
def mkContent (n : Nat) : String := String.mk (List.replicate n 'a')

/-- A user message whose content has exactly `n` characters. -/
def userMsg (id : String) (n : Nat) (ts : Nat) : Message :=
  { id := id, role := Role.user, content := mkContent n, timestamp := ts }

/-- An empty context with `maxTokens = 100` owned by session s1. -/
def ctxEmpty : Context :=
  { id := "c1", sessionId := some ("s1"), messages := [], totalTokens := 0,
    maxTokens := 100, createdAt := 0, updatedAt := 0 }

/-- Store holding just the empty context. -/
def dbEmptyCtx : Store := [ctxEmpty]

/-- A 40-character user message with its 40 tokens recorded. -/
def m40 : Message := { userMsg ("m40") 40 0 with tokens := some 40 }

/-- A context at 40 of 100 tokens holding one message. -/
def ctx40 : Context := { ctxEmpty with messages := [m40], totalTokens := 40 }

/-- Store holding `ctx40`. -/
def db40 : Store := [ctx40]

/-- The i-th of 12 one-character user messages. -/
def msgN (i : Nat) : Message :=
  { id := "m" ++ toString i, role := Role.user, content := "x", timestamp := i, tokens := some 1 }

/-- A 12-message context (longer than the recency window). -/
def ctx12 : Context :=
  { id := "c2", sessionId := some ("s2"), messages := List.map msgN (List.range 12),
    totalTokens := 12, maxTokens := 100, createdAt := 0, updatedAt := 0 }

/-- Store holding `ctx12`. -/
def db12 : Store := [ctx12]

/-- A single system-role message. -/
def sysM : Message :=
  { id := "sys1", role := Role.system, content := "hello", timestamp := 0 }

/-- 50-token user message (under `extLen`). -/
def m50 : Message := userMsg ("m50") 50 1

/-- 45-token user message. -/
def m45 : Message := userMsg ("m45") 45 2

/-- 39-token user message. -/
def m39 : Message := userMsg ("m39") 39 2

/-- 55-token user message. -/
def m55 : Message := userMsg ("m55") 55 1

/-- 2-token user message. -/
def m2 : Message := userMsg ("m2") 2 9

/-- The context row after appending `m50` to `ctxEmpty` at time 1. -/
def ctx1after : Context :=
  { ctxEmpty with
    messages := [{ m50 with tokens := some 50 }], totalTokens := 50, updatedAt := 1 }

/-- The store after appending `m50` to `dbEmptyCtx`. -/
def db1after : Store := [ctx1after]

end DevBot

namespace DevBot

/-! ### Helper lemmas -/

theorem foldl_add_shift {α : Type} (f : α → Nat) (l : List α) (n : Nat) :
    List.foldl (fun s a => s + f a) n l = n + List.foldl (fun s a => s + f a) 0 l := by
  induction l generalizing n with
  | nil => simp
  | cons a t ih =>
    simp only [List.foldl_cons]
    rw [ih (n + f a), ih (0 + f a)]
    omega

theorem tokenSum_cons (m : Message) (l : List Message) :
    tokenSum (m :: l) = m.tokens.getD 0 + tokenSum l := by
  unfold tokenSum
  simp only [List.foldl_cons]
  rw [foldl_add_shift (fun msg => msg.tokens.getD 0) l]
  omega

theorem tokenSum_append (l₁ l₂ : List Message) :
    tokenSum (l₁ ++ l₂) = tokenSum l₁ + tokenSum l₂ := by
  unfold tokenSum
  rw [List.foldl_append, foldl_add_shift (fun msg => msg.tokens.getD 0) l₂]

theorem tokenSum_single (m : Message) : tokenSum [m] = m.tokens.getD 0 := by
  unfold tokenSum
  simp

theorem getContext_mem {db : Store} {id : String} {c : Context}
    (h : DB.getContext db id = some c) : c ∈ db ∧ c.id = id := by
  unfold DB.getContext at h
  refine ⟨List.mem_of_find?_eq_some h, ?_⟩
  have := List.find?_some h
  simpa using this

theorem updateContext_getContext_self (db : Store) (id : String) (c : Context)
    (msgs : Option (List Message)) (sum : Option String) (tot : Option Nat) (now : Nat)
    (h : DB.getContext db id = some c) :
    DB.getContext (DB.updateContext db id msgs sum tot now) id =
      some (DB.applyUpdates c msgs sum tot now) := by
  unfold DB.getContext DB.updateContext at *
  induction db with
  | nil => simp at h
  | cons a t ih =>
    simp only [List.map_cons]
    by_cases ha : a.id = id
    · rw [List.find?_cons_of_pos _ (by simpa using ha)] at h
      injection h with h
      subst h
      rw [if_pos ha]
      exact List.find?_cons_of_pos _ (by simpa [DB.applyUpdates] using ha)
    · rw [List.find?_cons_of_neg _ (by simpa using ha)] at h
      rw [if_neg ha]
      rw [List.find?_cons_of_neg _ (by simpa using ha)]
      exact ih h

theorem storeInv_updateContext (db : Store) (id : String) (newMsgs : List Message)
    (sum : Option String) (newTot : Nat) (now : Nat)
    (hinv : StoreInv db) (hcons : newTot = tokenSum newMsgs) :
    StoreInv (DB.updateContext db id (some newMsgs) sum (some newTot) now) := by
  intro c hc
  unfold DB.updateContext at hc
  obtain ⟨a, ha, rfl⟩ := List.mem_map.mp hc
  by_cases h : a.id = id
  · rw [if_pos h]
    simpa [DB.applyUpdates] using hcons
  · rw [if_neg h]
    exact hinv a ha

theorem summarizeContext_eq_notFound (env : Env) (db : Store) (cid : String) (now : Nat)
    (h : DB.getContext db cid = none) :
    ContextManager.summarizeContext env db cid now =
      (db, Except.error ("Context not found: " ++ cid)) := by
  unfold ContextManager.summarizeContext
  rw [h]

theorem summarizeContext_eq_genFail (env : Env) (db : Store) (cid : String) (now : Nat)
    (context : Context) (e : String)
    (hctx : DB.getContext db cid = some context)
    (hgen : GeminiClient.summarizeCtx env context.messages = Except.error e) :
    ContextManager.summarizeContext env db cid now = (db, Except.error e) := by
  unfold ContextManager.summarizeContext
  simp only [hctx, hgen]

theorem summarizeContext_eq_ok (env : Env) (db : Store) (cid : String) (now : Nat)
    (context : Context) (summary : String)
    (hctx : DB.getContext db cid = some context)
    (hgen : GeminiClient.summarizeCtx env context.messages = Except.ok summary) :
    ContextManager.summarizeContext env db cid now =
      (DB.updateContext db cid
        (some (summaryMessageOf env summary now :: lastWindow context.messages))
        (some summary)
        (some (summaryTokensOf env summary now + tokenSum (lastWindow context.messages)))
        now,
       Except.ok ()) := by
  unfold ContextManager.summarizeContext
  simp only [hctx, hgen]
  rfl

theorem needsSummarization_eq (context : Context) (th : ℚ) :
    (ContextManager.getContextStats context th).needsSummarization =
      decide (((context.totalTokens : ℚ) / (context.maxTokens : ℚ)) * 100 ≥ th * 100) := rfl

theorem addMessage_eq_notFound (env : Env) (db : Store) (cid : String) (msg : Message)
    (now : Nat) (h : DB.getContext db cid = none) :
    ContextManager.addMessage env db cid msg now =
      (db, Except.error ("Context not found: " ++ cid)) := by
  unfold ContextManager.addMessage
  rw [h]

theorem addMessage_eq_trigger (env : Env) (db : Store) (cid : String) (msg : Message)
    (now : Nat) (context : Context)
    (hctx : DB.getContext db cid = some context)
    (htrig : (((context.totalTokens + GeminiClient.countTokens env.ext [msg] : ℕ) : ℚ) /
        ((context.maxTokens : ℕ) : ℚ)) * 100 ≥ env.threshold * 100) :
    ContextManager.addMessage env db cid msg now =
      ((ContextManager.summarizeContext env db cid now).1,
       Except.map (fun _ => true) (ContextManager.summarizeContext env db cid now).2) := by
  unfold ContextManager.addMessage
  simp only [hctx]
  split
  · rfl
  · next hguard =>
    exact absurd (decide_eq_true htrig) hguard

theorem addMessage_eq_noTrigger (env : Env) (db : Store) (cid : String) (msg : Message)
    (now : Nat) (context : Context)
    (hctx : DB.getContext db cid = some context)
    (hlow : ¬ ((((context.totalTokens + GeminiClient.countTokens env.ext [msg] : ℕ) : ℚ) /
        ((context.maxTokens : ℕ) : ℚ)) * 100 ≥ env.threshold * 100)) :
    ContextManager.addMessage env db cid msg now =
      (DB.updateContext db cid (some (context.messages ++ [msgWithTokens env msg])) none
        (some (context.totalTokens + GeminiClient.countTokens env.ext [msg])) now,
       Except.ok false) := by
  unfold ContextManager.addMessage
  simp only [hctx]
  split
  · next hguard =>
    exact absurd (of_decide_eq_true hguard) hlow
  · rfl

/-! ### Claim theorems -/

/-- C7: if the external token-counting call fails, `countTokens` returns the
fallback estimate — the ceiling of the total content length over all turns
divided by 4 (the value `r = (totalChars + 3) / 4`, characterized as the
ceiling by `totalChars ≤ 4·r < totalChars + 4`) — and, being a total
function into `Nat`, never propagates the counting failure to its
caller. -/
theorem countTokens_fallback (ext : List Content → Except String Nat)
    (messages : List Message) (e : String)
    (hfail : ext (GeminiClient.messagesToContent messages) = Except.error e) :
    GeminiClient.countTokens ext messages =
      (List.foldl (fun sum msg => sum + msg.content.length) 0 messages + 3) / 4 ∧
    List.foldl (fun sum msg => sum + msg.content.length) 0 messages ≤
      4 * GeminiClient.countTokens ext messages ∧
    4 * GeminiClient.countTokens ext messages <
      List.foldl (fun sum msg => sum + msg.content.length) 0 messages + 4 := by
  have h : GeminiClient.countTokens ext messages =
      (List.foldl (fun sum msg => sum + msg.content.length) 0 messages + 3) / 4 := by
    unfold GeminiClient.countTokens
    simp only [hfail]
  refine ⟨h, ?_, ?_⟩ <;> rw [h] <;> omega

/-- Witness for C7: a failing counter on a 6-character message yields the
fallback estimate ⌈6/4⌉ = 2. -/
theorem countTokens_fallback_witness :
    GeminiClient.countTokens extFail [userMsg ("w1") 6 0] =
      (List.foldl (fun sum msg => sum + msg.content.length) 0 [userMsg ("w1") 6 0] + 3) / 4 ∧
    GeminiClient.countTokens extFail [userMsg ("w1") 6 0] = 2 := by
  refine ⟨(countTokens_fallback extFail [userMsg ("w1") 6 0] ("network error") rfl).1, ?_⟩
  decide

/-- C8 counterexample: on a batch holding one system-role turn, the
rendering sent to the counting capability is empty (the turn is filtered
out), while the rendering used for generation includes it as a
role-prefixed line — the two renderings do not include the same turns. -/
theorem rendering_divergence_cex :
    GeminiClient.messagesToContent [sysM] = [] ∧
    GeminiClient.buildPrompt [sysM] none = "User: hello" := by
  exact ⟨rfl, rfl⟩

/-- C8 (amended): for every batch, the counting rendering includes exactly
the non-system turns, each with its content unchanged and in order, while
the generation rendering includes every turn as a role-prefixed line; the
contents of the two renderings coincide if and only if the batch holds no
system-role turn. -/
theorem rendering_agreement (messages : List Message) :
    List.map Content.text (GeminiClient.messagesToContent messages) =
      List.map Message.content
        (List.filter (fun msg => !(msg.role = Role.system)) messages) ∧
    GeminiClient.buildPrompt messages none =
      String.intercalate "\n\n"
        (List.map (fun msg =>
            (if msg.role = Role.assistant then "Assistant" else "User") ++ ": " ++ msg.content)
          messages) ∧
    (List.map Content.text (GeminiClient.messagesToContent messages) =
        List.map Message.content messages ↔
      ∀ m ∈ messages, m.role ≠ Role.system) := by
  have hgen : List.map Content.text (GeminiClient.messagesToContent messages) =
      List.map Message.content
        (List.filter (fun msg => !(msg.role = Role.system)) messages) := by
    unfold GeminiClient.messagesToContent
    rw [List.map_map]
    rfl
  refine ⟨hgen, ?_, ?_, ?_⟩
  · unfold GeminiClient.buildPrompt
    simp
  · intro heq
    have hlen : (List.filter (fun msg => !(msg.role = Role.system)) messages).length =
        messages.length := by
      have := congrArg List.length (hgen.symm.trans heq)
      simpa using this
    have hself : List.filter (fun msg => !(msg.role = Role.system)) messages = messages :=
      (List.filter_sublist messages).eq_of_length hlen
    intro m hm
    have := List.filter_eq_self.mp hself m hm
    simpa using this
  · intro h
    have hself : List.filter (fun msg => !(msg.role = Role.system)) messages = messages :=
      List.filter_eq_self.mpr (fun m hm => by simpa using h m hm)
    rw [hgen, hself]

/-- Witness for C8 (amended): on a batch mixing a system turn with a user
turn the counting rendering keeps exactly the non-system content, the
renderings' contents differ, and on a system-free batch the iff gives
their agreement. -/
theorem rendering_agreement_witness :
    List.map Content.text (GeminiClient.messagesToContent [sysM, m2]) =
      List.map Message.content
        (List.filter (fun msg => !(msg.role = Role.system)) [sysM, m2]) ∧
    ¬ (∀ m ∈ [sysM, m2], m.role ≠ Role.system) ∧
    List.map Content.text
        (GeminiClient.messagesToContent
          [userMsg ("u1") 2 0, { userMsg ("a1") 3 1 with role := Role.assistant }]) =
      List.map Message.content
        [userMsg ("u1") 2 0, { userMsg ("a1") 3 1 with role := Role.assistant }] :=
  ⟨(rendering_agreement [sysM, m2]).1,
   fun h => absurd ((rendering_agreement [sysM, m2]).2.2.mpr h) (by decide),
   (rendering_agreement
     [userMsg ("u1") 2 0, { userMsg ("a1") 3 1 with role := Role.assistant }]).2.2.mpr
     (by decide)⟩

/-- C4 counterexample: running compaction on a one-user-message context
produces a log whose synthetic head turn carries role `system` — the
`Message.role` union has no separate `summary` member, so the synthetic
turn's role is not distinct from `system`. -/
theorem summary_role_cex :
    Option.map (fun c => List.map Message.role c.messages)
        (DB.getContext (ContextManager.summarizeContext envOk db40 ("c1") 7).1 ("c1")) =
      some [Role.system, Role.user] := by
  decide

/-- C4 (amended): every turn's role is one of user, assistant, system
(there is no fourth `summary` role), and the synthetic turn produced by a
successful compaction carries role `system`, identified instead by the
`[CONTEXT SUMMARY]` banner prefixed to its content. -/
theorem summary_role_amended :
    (∀ r : Role, r = Role.user ∨ r = Role.assistant ∨ r = Role.system) ∧
    (∀ (env : Env) (db : Store) (cid : String) (now : Nat) (context : Context)
        (summary : String),
      DB.getContext db cid = some context →
      GeminiClient.summarizeCtx env context.messages = Except.ok summary →
      ∃ context' rest,
        DB.getContext (ContextManager.summarizeContext env db cid now).1 cid = some context' ∧
        List.head? context'.messages = some (summaryMessageOf env summary now) ∧
        (summaryMessageOf env summary now).role = Role.system ∧
        (summaryMessageOf env summary now).content = "[CONTEXT SUMMARY]\n" ++ rest) := by
  constructor
  · intro r
    cases r
    · exact Or.inl rfl
    · exact Or.inr (Or.inl rfl)
    · exact Or.inr (Or.inr rfl)
  · intro env db cid now context summary hctx hgen
    rw [summarizeContext_eq_ok env db cid now context summary hctx hgen]
    refine ⟨_, summary ++ "\n\n[RECENT MESSAGES FOLLOW]",
      updateContext_getContext_self _ _ _ _ _ _ _ hctx, ?_, rfl, ?_⟩
    · simp [DB.applyUpdates]
    · simp [summaryMessageOf, summaryMessageBase, String.append_assoc]

/-- Witness for C4 (amended): instantiation of both parts on the concrete
one-message store. -/
theorem summary_role_amended_witness :
    (Role.user = Role.user ∨ Role.user = Role.assistant ∨ Role.user = Role.system) ∧
    (∃ context' rest,
      DB.getContext (ContextManager.summarizeContext envOk db40 ("c1") 7).1 ("c1") =
          some context' ∧
      List.head? context'.messages = some (summaryMessageOf envOk ("S") 7) ∧
      (summaryMessageOf envOk ("S") 7).role = Role.system ∧
      (summaryMessageOf envOk ("S") 7).content = "[CONTEXT SUMMARY]\n" ++ rest) :=
  ⟨summary_role_amended.1 Role.user,
   summary_role_amended.2 envOk db40 ("c1") 7 ctx40 ("S") rfl rfl⟩

/-- C5 counterexample: compaction on a context holding a single turn (fewer
than K+1 = 11 entries) is not a no-op: it still summarizes, rewriting the
one-user-turn log into a two-turn log headed by a synthetic system summary
turn. -/
theorem small_log_compaction_cex :
    Option.map (fun c => List.map Message.role c.messages) (DB.getContext db40 ("c1")) =
      some [Role.user] ∧
    (ContextManager.summarizeContext envOk db40 ("c1") 7).2 = Except.ok () ∧
    Option.map (fun c => List.map Message.role c.messages)
        (DB.getContext (ContextManager.summarizeContext envOk db40 ("c1") 7).1 ("c1")) =
      some [Role.system, Role.user] ∧
    Option.map (fun c => c.messages.length)
        (DB.getContext (ContextManager.summarizeContext envOk db40 ("c1") 7).1 ("c1")) ≠
      Option.map (fun c => c.messages.length) (DB.getContext db40 ("c1")) := by
  refine ⟨rfl, rfl, ?_, ?_⟩ <;> decide

/-- C5 (amended): there is no small-log guard: even when the log has at
most 10 (= K) entries, a successful compaction still summarizes,
replacing the log with the synthetic summary turn followed by all the
previous turns, growing the turn count by one. -/
theorem small_log_compaction_amended (env : Env) (db : Store) (cid : String) (now : Nat)
    (context : Context) (summary : String)
    (hctx : DB.getContext db cid = some context)
    (hgen : GeminiClient.summarizeCtx env context.messages = Except.ok summary)
    (hsmall : context.messages.length ≤ 10) :
    ∃ context',
      DB.getContext (ContextManager.summarizeContext env db cid now).1 cid = some context' ∧
      context'.messages = summaryMessageOf env summary now :: context.messages ∧
      context'.messages.length = context.messages.length + 1 := by
  have hw : lastWindow context.messages = context.messages := by
    unfold lastWindow
    rw [Nat.sub_eq_zero_of_le hsmall, List.drop_zero]
  rw [summarizeContext_eq_ok env db cid now context summary hctx hgen]
  refine ⟨_, updateContext_getContext_self _ _ _ _ _ _ _ hctx, ?_, ?_⟩
  · simp [DB.applyUpdates, hw]
  · simp [DB.applyUpdates, hw]

/-- Witness for C5 (amended): the one-message context is rewritten to the
summary turn followed by that message. -/
theorem small_log_compaction_amended_witness :
    ∃ context',
      DB.getContext (ContextManager.summarizeContext envOk db40 ("c1") 11).1 ("c1") =
          some context' ∧
      context'.messages = summaryMessageOf envOk ("S") 11 :: ctx40.messages ∧
      context'.messages.length = ctx40.messages.length + 1 :=
  small_log_compaction_amended envOk db40 ("c1") 11 ctx40 ("S") rfl rfl (by decide)

/-- C6: a successful compaction replaces the log with exactly the
synthetic summary turn followed by the last 10 pre-compaction turns —
a suffix of the pre-compaction log, hence unchanged and in their original
relative order, of length exactly 10 whenever at least 10 turns were
present. -/
theorem recency_preservation (env : Env) (db : Store) (cid : String) (now : Nat)
    (context : Context) (summary : String)
    (hctx : DB.getContext db cid = some context)
    (hgen : GeminiClient.summarizeCtx env context.messages = Except.ok summary) :
    ∃ context',
      DB.getContext (ContextManager.summarizeContext env db cid now).1 cid = some context' ∧
      context'.messages = summaryMessageOf env summary now :: lastWindow context.messages ∧
      lastWindow context.messages <:+ context.messages ∧
      (10 ≤ context.messages.length → (lastWindow context.messages).length = 10) := by
  rw [summarizeContext_eq_ok env db cid now context summary hctx hgen]
  refine ⟨_, updateContext_getContext_self _ _ _ _ _ _ _ hctx, ?_, ?_, ?_⟩
  · simp [DB.applyUpdates]
  · unfold lastWindow
    exact List.drop_suffix _ _
  · intro hlen
    unfold lastWindow
    rw [List.length_drop]
    omega

/-- Witness for C6: on a 12-turn context the new log is the summary turn
followed by exactly the last 10 turns. -/
theorem recency_preservation_witness :
    ∃ context',
      DB.getContext (ContextManager.summarizeContext envOk db12 ("c2") 13).1 ("c2") =
          some context' ∧
      context'.messages = summaryMessageOf envOk ("S") 13 :: lastWindow ctx12.messages ∧
      lastWindow ctx12.messages <:+ ctx12.messages ∧
      (10 ≤ ctx12.messages.length → (lastWindow ctx12.messages).length = 10) :=
  recency_preservation envOk db12 ("c2") 13 ctx12 ("S") rfl rfl

/-- The session lookup on a store with no row for the session finds
nothing. -/
theorem getContextBySession_of_filter_nil (db : Store) (sid : String)
    (hf : List.filter (fun c => c.sessionId = some sid) db = []) :
    DB.getContextBySession db sid = none := by
  unfold DB.getContextBySession
  rw [hf]
  rfl

/-- The session lookup on a store with exactly one row for the session
returns that row. -/
theorem getContextBySession_of_filter_singleton (db : Store) (sid : String) (r : Context)
    (hf : List.filter (fun c => c.sessionId = some sid) db = [r]) :
    DB.getContextBySession db sid = some r := by
  unfold DB.getContextBySession
  rw [hf]
  rfl

/-- The project lookup on a store with no row for the project finds
nothing. -/
theorem getContextByProject_of_filter_nil (db : Store) (pid : String)
    (hf : List.filter (fun c => c.projectId = some pid) db = []) :
    DB.getContextByProject db pid = none := by
  unfold DB.getContextByProject
  rw [hf]
  rfl

/-- The project lookup on a store with exactly one row for the project
returns that row. -/
theorem getContextByProject_of_filter_singleton (db : Store) (pid : String) (r : Context)
    (hf : List.filter (fun c => c.projectId = some pid) db = [r]) :
    DB.getContextByProject db pid = some r := by
  unfold DB.getContextByProject
  rw [hf]
  rfl

/-- Session-owner half of the get-or-create idempotence argument. -/
theorem getOrCreateBySession_spec (env env2 : Env) (db : Store) (f1 f2 : String)
    (n1 n2 : Nat) (sid : String)
    (h : (List.filter (fun c => c.sessionId = some sid) db).length ≤ 1) :
    (ContextManager.getContextBySession env db f1 n1 sid).1.id =
      (ContextManager.getContextBySession env2
        (ContextManager.getContextBySession env db f1 n1 sid).2 f2 n2 sid).1.id ∧
    (List.filter (fun c => c.sessionId = some sid)
        (ContextManager.getContextBySession env db f1 n1 sid).2).length ≤ 1 ∧
    (List.filter (fun c => c.sessionId = some sid)
        (ContextManager.getContextBySession env2
          (ContextManager.getContextBySession env db f1 n1 sid).2 f2 n2 sid).2).length ≤ 1 := by
  rcases hf : List.filter (fun c => c.sessionId = some sid) db with _ | ⟨r, _ | ⟨x, xs⟩⟩
  · have hn := getContextBySession_of_filter_nil db sid hf
    have h1 : ContextManager.getContextBySession env db f1 n1 sid =
        ContextManager.createContext env db f1 n1 (some sid) none := by
      unfold ContextManager.getContextBySession
      simp only [hn]
    rw [h1]
    have hf2 : List.filter (fun c => c.sessionId = some sid)
        (ContextManager.createContext env db f1 n1 (some sid) none).2 =
          [(ContextManager.createContext env db f1 n1 (some sid) none).1] := by
      show List.filter _ (List.append db _) = _
      rw [List.append_eq, List.filter_append, hf]
      simp [ContextManager.createContext]
    have hs2 := getContextBySession_of_filter_singleton _ sid _ hf2
    have h2 : ContextManager.getContextBySession env2
        (ContextManager.createContext env db f1 n1 (some sid) none).2 f2 n2 sid =
          ((ContextManager.createContext env db f1 n1 (some sid) none).1,
           (ContextManager.createContext env db f1 n1 (some sid) none).2) := by
      unfold ContextManager.getContextBySession
      simp only [hs2]
    rw [h2]
    refine ⟨rfl, ?_, ?_⟩ <;> rw [hf2] <;> simp
  · have hs := getContextBySession_of_filter_singleton db sid r hf
    have h1 : ContextManager.getContextBySession env db f1 n1 sid = (r, db) := by
      unfold ContextManager.getContextBySession
      simp only [hs]
    have h2 : ContextManager.getContextBySession env2 db f2 n2 sid = (r, db) := by
      unfold ContextManager.getContextBySession
      simp only [hs]
    rw [h1]
    rw [h2]
    exact ⟨rfl, h, h⟩
  · exfalso
    rw [hf] at h
    simp at h

/-- Project-owner half of the get-or-create idempotence argument. -/
theorem getOrCreateByProject_spec (env env2 : Env) (db : Store) (f1 f2 : String)
    (n1 n2 : Nat) (pid : String)
    (h : (List.filter (fun c => c.projectId = some pid) db).length ≤ 1) :
    (ContextManager.getContextByProject env db f1 n1 pid).1.id =
      (ContextManager.getContextByProject env2
        (ContextManager.getContextByProject env db f1 n1 pid).2 f2 n2 pid).1.id ∧
    (List.filter (fun c => c.projectId = some pid)
        (ContextManager.getContextByProject env db f1 n1 pid).2).length ≤ 1 ∧
    (List.filter (fun c => c.projectId = some pid)
        (ContextManager.getContextByProject env2
          (ContextManager.getContextByProject env db f1 n1 pid).2 f2 n2 pid).2).length ≤ 1 := by
  rcases hf : List.filter (fun c => c.projectId = some pid) db with _ | ⟨r, _ | ⟨x, xs⟩⟩
  · have hn := getContextByProject_of_filter_nil db pid hf
    have h1 : ContextManager.getContextByProject env db f1 n1 pid =
        ContextManager.createContext env db f1 n1 none (some pid) := by
      unfold ContextManager.getContextByProject
      simp only [hn]
    rw [h1]
    have hf2 : List.filter (fun c => c.projectId = some pid)
        (ContextManager.createContext env db f1 n1 none (some pid)).2 =
          [(ContextManager.createContext env db f1 n1 none (some pid)).1] := by
      show List.filter _ (List.append db _) = _
      rw [List.append_eq, List.filter_append, hf]
      simp [ContextManager.createContext]
    have hs2 := getContextByProject_of_filter_singleton _ pid _ hf2
    have h2 : ContextManager.getContextByProject env2
        (ContextManager.createContext env db f1 n1 none (some pid)).2 f2 n2 pid =
          ((ContextManager.createContext env db f1 n1 none (some pid)).1,
           (ContextManager.createContext env db f1 n1 none (some pid)).2) := by
      unfold ContextManager.getContextByProject
      simp only [hs2]
    rw [h2]
    refine ⟨rfl, ?_, ?_⟩ <;> rw [hf2] <;> simp
  · have hs := getContextByProject_of_filter_singleton db pid r hf
    have h1 : ContextManager.getContextByProject env db f1 n1 pid = (r, db) := by
      unfold ContextManager.getContextByProject
      simp only [hs]
    have h2 : ContextManager.getContextByProject env2 db f2 n2 pid = (r, db) := by
      unfold ContextManager.getContextByProject
      simp only [hs]
    rw [h1]
    rw [h2]
    exact ⟨rfl, h, h⟩
  · exfalso
    rw [hf] at h
    simp at h

/-- C9: for every owner — session or project — starting from a store with
at most one context row for that owner, calling get-or-create twice
returns the same context id both times, and after each call the store
still holds at most one row for that owner. -/
theorem getOrCreate_idempotent (env env2 : Env) (db : Store) (f1 f2 : String)
    (n1 n2 : Nat) (sid pid : String)
    (hs : (List.filter (fun c => c.sessionId = some sid) db).length ≤ 1)
    (hp : (List.filter (fun c => c.projectId = some pid) db).length ≤ 1) :
    ((ContextManager.getContextBySession env db f1 n1 sid).1.id =
        (ContextManager.getContextBySession env2
          (ContextManager.getContextBySession env db f1 n1 sid).2 f2 n2 sid).1.id ∧
      (List.filter (fun c => c.sessionId = some sid)
          (ContextManager.getContextBySession env db f1 n1 sid).2).length ≤ 1 ∧
      (List.filter (fun c => c.sessionId = some sid)
          (ContextManager.getContextBySession env2
            (ContextManager.getContextBySession env db f1 n1 sid).2 f2 n2 sid).2).length ≤ 1) ∧
    ((ContextManager.getContextByProject env db f1 n1 pid).1.id =
        (ContextManager.getContextByProject env2
          (ContextManager.getContextByProject env db f1 n1 pid).2 f2 n2 pid).1.id ∧
      (List.filter (fun c => c.projectId = some pid)
          (ContextManager.getContextByProject env db f1 n1 pid).2).length ≤ 1 ∧
      (List.filter (fun c => c.projectId = some pid)
          (ContextManager.getContextByProject env2
            (ContextManager.getContextByProject env db f1 n1 pid).2 f2 n2 pid).2).length ≤ 1) :=
  ⟨getOrCreateBySession_spec env env2 db f1 f2 n1 n2 sid hs,
   getOrCreateByProject_spec env env2 db f1 f2 n1 n2 pid hp⟩

/-- Witness for C9: from the empty store, for a session owner and a
project owner alike, the first call creates the row and the second call
returns it — same id, one row throughout. -/
theorem getOrCreate_idempotent_witness :
    ((ContextManager.getContextBySession envOk [] ("f1") 1 ("s9")).1.id =
        (ContextManager.getContextBySession envOk
          (ContextManager.getContextBySession envOk [] ("f1") 1 ("s9")).2 ("f2") 2
          ("s9")).1.id ∧
      (List.filter (fun c => c.sessionId = some ("s9"))
          (ContextManager.getContextBySession envOk [] ("f1") 1 ("s9")).2).length ≤ 1 ∧
      (List.filter (fun c => c.sessionId = some ("s9"))
          (ContextManager.getContextBySession envOk
            (ContextManager.getContextBySession envOk [] ("f1") 1 ("s9")).2 ("f2") 2
            ("s9")).2).length ≤ 1) ∧
    ((ContextManager.getContextByProject envOk [] ("f1") 1 ("p9")).1.id =
        (ContextManager.getContextByProject envOk
          (ContextManager.getContextByProject envOk [] ("f1") 1 ("p9")).2 ("f2") 2
          ("p9")).1.id ∧
      (List.filter (fun c => c.projectId = some ("p9"))
          (ContextManager.getContextByProject envOk [] ("f1") 1 ("p9")).2).length ≤ 1 ∧
      (List.filter (fun c => c.projectId = some ("p9"))
          (ContextManager.getContextByProject envOk
            (ContextManager.getContextByProject envOk [] ("f1") 1 ("p9")).2 ("f2") 2
            ("p9")).2).length ≤ 1) :=
  getOrCreate_idempotent envOk envOk [] ("f1") ("f2") 1 2 ("s9") ("p9") (by decide) (by decide)

/-- Compaction preserves the per-row token-sum invariant: on success the
new total is re-derived from the very messages stored; on failure the
store is untouched. -/
theorem storeInv_summarizeContext (env : Env) (db : Store) (cid : String) (now : Nat)
    (hinv : StoreInv db) : StoreInv (ContextManager.summarizeContext env db cid now).1 := by
  cases hctx : DB.getContext db cid with
  | none =>
    rw [summarizeContext_eq_notFound env db cid now hctx]
    exact hinv
  | some context =>
    cases hgen : GeminiClient.summarizeCtx env context.messages with
    | error e =>
      rw [summarizeContext_eq_genFail env db cid now context e hctx hgen]
      exact hinv
    | ok summary =>
      rw [summarizeContext_eq_ok env db cid now context summary hctx hgen]
      apply storeInv_updateContext _ _ _ _ _ _ hinv
      rw [tokenSum_cons]
      simp [summaryMessageOf]

/-- A single append preserves the per-row token-sum invariant on every
path. -/
theorem storeInv_addMessage (env : Env) (db : Store) (cid : String) (msg : Message)
    (now : Nat) (hinv : StoreInv db) :
    StoreInv (ContextManager.addMessage env db cid msg now).1 := by
  cases hctx : DB.getContext db cid with
  | none =>
    rw [addMessage_eq_notFound env db cid msg now hctx]
    exact hinv
  | some context =>
    by_cases htrig : (((context.totalTokens + GeminiClient.countTokens env.ext [msg] : ℕ) : ℚ) /
        ((context.maxTokens : ℕ) : ℚ)) * 100 ≥ env.threshold * 100
    · rw [addMessage_eq_trigger env db cid msg now context hctx htrig]
      exact storeInv_summarizeContext env db cid now hinv
    · rw [addMessage_eq_noTrigger env db cid msg now context hctx htrig]
      apply storeInv_updateContext _ _ _ _ _ _ hinv
      have hc := hinv context (getContext_mem hctx).1
      rw [tokenSum_append, tokenSum_single, hc]
      simp [msgWithTokens]

/-- C2: for any sequence of appends on one context, if every store row's
`totalTokens` equals the sum of its messages' token counts beforehand,
the same holds after every append in the sequence — including the appends
that trigger compaction, whose new totals are re-derived from the stored
messages. -/
theorem totalTokens_invariant (env : Env) (db : Store) (cid : String)
    (calls : List (Message × Nat)) (hinv : StoreInv db) :
    StoreInv (runAppends env db cid calls).1 := by
  suffices h : ∀ (calls : List (Message × Nat)) (db : Store) (acc : List (Except String Bool)),
      StoreInv db →
      StoreInv (List.foldl
        (fun acc call =>
          ((ContextManager.addMessage env acc.1 cid call.1 call.2).1,
           acc.2 ++ [(ContextManager.addMessage env acc.1 cid call.1 call.2).2]))
        (db, acc) calls).1 by
    exact h calls db [] hinv
  intro calls
  induction calls with
  | nil =>
    intro db acc hdb
    simpa using hdb
  | cons c t ih =>
    intro db acc hdb
    simp only [List.foldl_cons]
    exact ih _ _ (storeInv_addMessage env db cid c.1 c.2 hdb)

/-- Witness for C2: the invariant holds on the concrete store and is
preserved across a two-append run that ends in a compaction. -/
theorem totalTokens_invariant_witness :
    StoreInv dbEmptyCtx ∧
    StoreInv (runAppends envOk dbEmptyCtx ("c1") [(m50, 1), (m45, 2)]).1 :=
  ⟨by decide, totalTokens_invariant envOk dbEmptyCtx ("c1") [(m50, 1), (m45, 2)] (by decide)⟩

/-- 50 of 100 tokens stays under the 90% threshold. -/
theorem low50_fact :
    ¬ ((((ctxEmpty.totalTokens + GeminiClient.countTokens envOk.ext [m50] : ℕ) : ℚ) /
        ((ctxEmpty.maxTokens : ℕ) : ℚ)) * 100 ≥ envOk.threshold * 100) := by
  have hct : GeminiClient.countTokens envOk.ext [m50] = 50 := by decide
  rw [hct]
  show ¬ ((((0 + 50 : ℕ) : ℚ) / ((100 : ℕ) : ℚ)) * 100 ≥ (9 / 10 : ℚ) * 100)
  norm_num

/-- 95 of 100 tokens crosses the 90% threshold. -/
theorem trig95_fact :
    (((ctx1after.totalTokens + GeminiClient.countTokens envOk.ext [m45] : ℕ) : ℚ) /
        ((ctx1after.maxTokens : ℕ) : ℚ)) * 100 ≥ envOk.threshold * 100 := by
  have hct : GeminiClient.countTokens envOk.ext [m45] = 45 := by decide
  rw [hct]
  show (((50 + 45 : ℕ) : ℚ) / ((100 : ℕ) : ℚ)) * 100 ≥ (9 / 10 : ℚ) * 100
  norm_num

/-- 89 of 100 tokens stays under the 90% threshold. -/
theorem low89_fact :
    ¬ ((((ctx1after.totalTokens + GeminiClient.countTokens envOk.ext [m39] : ℕ) : ℚ) /
        ((ctx1after.maxTokens : ℕ) : ℚ)) * 100 ≥ envOk.threshold * 100) := by
  have hct : GeminiClient.countTokens envOk.ext [m39] = 39 := by decide
  rw [hct]
  show ¬ ((((50 + 39 : ℕ) : ℚ) / ((100 : ℕ) : ℚ)) * 100 ≥ (9 / 10 : ℚ) * 100)
  norm_num

/-- Appending 55 tokens to the 40-token context crosses the threshold
(working-generation environment). -/
theorem trig95_ok_fact :
    (((ctx40.totalTokens + GeminiClient.countTokens envOk.ext [m55] : ℕ) : ℚ) /
        ((ctx40.maxTokens : ℕ) : ℚ)) * 100 ≥ envOk.threshold * 100 := by
  have hct : GeminiClient.countTokens envOk.ext [m55] = 55 := by decide
  rw [hct]
  show (((40 + 55 : ℕ) : ℚ) / ((100 : ℕ) : ℚ)) * 100 ≥ (9 / 10 : ℚ) * 100
  norm_num

/-- Appending 55 tokens to the 40-token context crosses the threshold
(failing-generation environment bills the same counts). -/
theorem trig95_genFail_fact :
    (((ctx40.totalTokens + GeminiClient.countTokens envGenFail.ext [m55] : ℕ) : ℚ) /
        ((ctx40.maxTokens : ℕ) : ℚ)) * 100 ≥ envGenFail.threshold * 100 := by
  have hct : GeminiClient.countTokens envGenFail.ext [m55] = 55 := by decide
  rw [hct]
  show (((40 + 55 : ℕ) : ℚ) / ((100 : ℕ) : ℚ)) * 100 ≥ (9 / 10 : ℚ) * 100
  norm_num

/-- Appending 2 tokens to the 40-token context stays under the threshold. -/
theorem low42_genFail_fact :
    ¬ ((((ctx40.totalTokens + GeminiClient.countTokens envGenFail.ext [m2] : ℕ) : ℚ) /
        ((ctx40.maxTokens : ℕ) : ℚ)) * 100 ≥ envGenFail.threshold * 100) := by
  have hct : GeminiClient.countTokens envGenFail.ext [m2] = 2 := by decide
  rw [hct]
  show ¬ ((((40 + 2 : ℕ) : ℚ) / ((100 : ℕ) : ℚ)) * 100 ≥ (9 / 10 : ℚ) * 100)
  norm_num

/-- C1 counterexample: when the generation capability errors during the
compaction triggered by an append, the append operation itself rejects
with that error — the failure surfaces to the caller as a thrown error,
not as a non-fatal warning. -/
theorem compaction_failure_cex :
    (ContextManager.addMessage envGenFail db40 ("c1") m55 7).2 = Except.error ("boom") := by
  rw [addMessage_eq_trigger envGenFail db40 ("c1") m55 7 ctx40 rfl trig95_genFail_fact]
  rw [summarizeContext_eq_genFail envGenFail db40 ("c1") 7 ctx40 ("boom") rfl rfl]
  rfl

/-- C1 (amended): if the generation capability errors during the
compaction triggered by an append, the persisted store is byte-for-byte
unchanged from its pre-append state (in particular the triggering turn is
not persisted either), the failure propagates out of the append as an
error rather than a non-fatal warning, and the context remains usable: a
subsequent append that does not itself cross the threshold succeeds. -/
theorem compaction_failure_safety (env : Env) (db : Store) (cid : String) (msg : Message)
    (now : Nat) (context : Context) (e : String)
    (hctx : DB.getContext db cid = some context)
    (hgen : ∀ p, env.gen p = Except.error e)
    (htrig : (((context.totalTokens + GeminiClient.countTokens env.ext [msg] : ℕ) : ℚ) /
        ((context.maxTokens : ℕ) : ℚ)) * 100 ≥ env.threshold * 100) :
    (ContextManager.addMessage env db cid msg now).1 = db ∧
    (ContextManager.addMessage env db cid msg now).2 = Except.error e ∧
    (∀ (msg2 : Message) (now2 : Nat),
      ¬ ((((context.totalTokens + GeminiClient.countTokens env.ext [msg2] : ℕ) : ℚ) /
          ((context.maxTokens : ℕ) : ℚ)) * 100 ≥ env.threshold * 100) →
      (ContextManager.addMessage env db cid msg2 now2).2 = Except.ok false) := by
  have hg : GeminiClient.summarizeCtx env context.messages = Except.error e := hgen _
  have ha := addMessage_eq_trigger env db cid msg now context hctx htrig
  have hs := summarizeContext_eq_genFail env db cid now context e hctx hg
  refine ⟨?_, ?_, ?_⟩
  · rw [ha, hs]
  · rw [ha, hs]
    rfl
  · intro msg2 now2 hlow
    rw [addMessage_eq_noTrigger env db cid msg2 now2 context hctx hlow]

/-- Witness for C1 (amended): the concrete failing append leaves the store
equal to `db40`, rejects with the generation error, and a following small
append succeeds. -/
theorem compaction_failure_safety_witness :
    (ContextManager.addMessage envGenFail db40 ("c1") m55 7).1 = db40 ∧
    (ContextManager.addMessage envGenFail db40 ("c1") m55 7).2 = Except.error ("boom") ∧
    (ContextManager.addMessage envGenFail db40 ("c1") m2 9).2 = Except.ok false := by
  have h := compaction_failure_safety envGenFail db40 ("c1") m55 7 ctx40 ("boom") rfl
    (fun p => rfl) trig95_genFail_fact
  exact ⟨h.1, h.2.1, h.2.2 m2 9 low42_genFail_fact⟩

/-- C3: the statistics view's compaction flag equals
`percentageUsed ≥ threshold·100`; an append on an existing context runs
compaction exactly when the post-append `totalTokens/maxTokens·100`
crosses that bound; concretely, with `maxTokens = 100` and threshold 0.9,
appends of 50 then 45 tokens (95 total) run exactly one compaction, and
appends of 50 then 39 tokens (89 total) run none. -/
theorem threshold_trigger :
    (∀ (context : Context) (threshold : ℚ),
      (ContextManager.getContextStats context threshold).needsSummarization =
        decide ((ContextManager.getContextStats context threshold).percentageUsed ≥
          threshold * 100)) ∧
    (∀ (env : Env) (db : Store) (cid : String) (msg : Message) (now : Nat) (context : Context),
      DB.getContext db cid = some context →
      (((((context.totalTokens + GeminiClient.countTokens env.ext [msg] : ℕ) : ℚ) /
          ((context.maxTokens : ℕ) : ℚ)) * 100 ≥ env.threshold * 100 →
        ContextManager.addMessage env db cid msg now =
          ((ContextManager.summarizeContext env db cid now).1,
           Except.map (fun _ => true) (ContextManager.summarizeContext env db cid now).2)) ∧
       (¬ ((((context.totalTokens + GeminiClient.countTokens env.ext [msg] : ℕ) : ℚ) /
          ((context.maxTokens : ℕ) : ℚ)) * 100 ≥ env.threshold * 100) →
        ContextManager.addMessage env db cid msg now =
          (DB.updateContext db cid (some (context.messages ++ [msgWithTokens env msg])) none
            (some (context.totalTokens + GeminiClient.countTokens env.ext [msg])) now,
           Except.ok false)))) ∧
    (runAppends envOk dbEmptyCtx ("c1") [(m50, 1), (m45, 2)]).2 =
      [Except.ok false, Except.ok true] ∧
    (runAppends envOk dbEmptyCtx ("c1") [(m50, 1), (m39, 2)]).2 =
      [Except.ok false, Except.ok false] := by
  have h1 : ContextManager.addMessage envOk dbEmptyCtx ("c1") m50 1 =
      (db1after, Except.ok false) := by
    rw [addMessage_eq_noTrigger envOk dbEmptyCtx ("c1") m50 1 ctxEmpty rfl low50_fact]
    rfl
  have h2 := addMessage_eq_trigger envOk db1after ("c1") m45 2 ctx1after rfl trig95_fact
  have h2b : (ContextManager.summarizeContext envOk db1after ("c1") 2).2 = Except.ok () := by
    rw [summarizeContext_eq_ok envOk db1after ("c1") 2 ctx1after ("S") rfl rfl]
  have h3 := addMessage_eq_noTrigger envOk db1after ("c1") m39 2 ctx1after rfl low89_fact
  refine ⟨?_, ?_, ?_, ?_⟩
  · intro context threshold
    rfl
  · intro env db cid msg now context hctx
    exact ⟨fun ht => addMessage_eq_trigger env db cid msg now context hctx ht,
           fun hl => addMessage_eq_noTrigger env db cid msg now context hctx hl⟩
  · simp only [runAppends, List.foldl_cons, List.foldl_nil, h1, h2, h2b]
    simp [Except.map]
  · simp only [runAppends, List.foldl_cons, List.foldl_nil, h1, h3]
    simp

/-- Witness for C3: the 95-token concrete append on the 40-token context
takes the compaction branch. -/
theorem threshold_trigger_witness :
    ContextManager.addMessage envOk db40 ("c1") m55 7 =
      ((ContextManager.summarizeContext envOk db40 ("c1") 7).1,
       Except.map (fun _ => true) (ContextManager.summarizeContext envOk db40 ("c1") 7).2) :=
  (threshold_trigger.2.1 envOk db40 ("c1") m55 7 ctx40 rfl).1 trig95_ok_fact

end DevBot
